import Mathlib

/-!
Shallow embedding of the framing-and-codec core of the `libOpenflow` library
(package `openflow15`: the OXM match codec; package `util`: the framed message
stream in `stream.go`).

Conventions of the embedding:
* Byte strings are `List Nat`; every entry produced by a marshaler is `< 256`.
* Go's fixed-width unsigned integers are `Nat`; a reduction `% 2^w` is applied
  exactly where the Go type system would truncate (`uint8` stores, `uint16`
  addition, byte writes).
* Fallible Go functions return `GoResult`: `.ok` for a `nil` error return,
  `.err` for a non-`nil` error return, and `.crash` for a Go runtime panic
  (out-of-range slice indexing, or calling a method on a `nil` interface).
* `copy(dst, src)` is `goCopy`: it overwrites `min |dst| |src|` leading
  elements of `dst` and keeps the rest of `dst`.
-/

/-- Error taxonomy of the codec (spec §7): the distinct error kinds returned by
the Go code, abstracted from their message strings. -/
inductive OxmErr where
  | shortBuffer
  | unknownField
  | unsupportedExperimenter
  deriving DecidableEq, Repr

/-- Result of a fallible Go computation: `nil`-error success, error return, or
runtime panic. -/
inductive GoResult (α : Type) where
  | ok (a : α)
  | err (e : OxmErr)
  | crash
  deriving DecidableEq, Repr

/-- `binary.BigEndian.PutUint16`: the two big-endian bytes of a `uint16`. -/
def putUint16 (v : Nat) : List Nat := [v / 256 % 256, v % 256]

/-- `binary.BigEndian.PutUint32`: the four big-endian bytes of a `uint32`. -/
def putUint32 (v : Nat) : List Nat :=
  [v / 16777216 % 256, v / 65536 % 256, v / 256 % 256, v % 256]

/-- `binary.BigEndian.PutUint64`: the eight big-endian bytes of a `uint64`. -/
def putUint64 (v : Nat) : List Nat :=
  [v / 72057594037927936 % 256, v / 281474976710656 % 256,
   v / 1099511627776 % 256, v / 4294967296 % 256,
   v / 16777216 % 256, v / 65536 % 256, v / 256 % 256, v % 256]

/-- The big-endian `uint16` read at offset `i` (total; callers guard bounds). -/
def beUint16at (l : List Nat) (i : Nat) : Nat := 256 * l.getD i 0 + l.getD (i + 1) 0

/-- The big-endian `uint32` read at offset `i` (total; callers guard bounds). -/
def beUint32at (l : List Nat) (i : Nat) : Nat :=
  16777216 * l.getD i 0 + 65536 * l.getD (i + 1) 0 + 256 * l.getD (i + 2) 0 + l.getD (i + 3) 0

/-- The big-endian `uint64` read at offset `i` (total; callers guard bounds). -/
def beUint64at (l : List Nat) (i : Nat) : Nat :=
  4294967296 * beUint32at l i + beUint32at l (i + 4)

/-- `binary.BigEndian.Uint16(data[i:])`: panics unless two bytes are available. -/
def readUint16 (data : List Nat) (i : Nat) : GoResult Nat :=
  if i + 2 ≤ data.length then .ok (beUint16at data i) else .crash

/-- `binary.BigEndian.Uint32(data[i:])`: panics unless four bytes are available. -/
def readUint32 (data : List Nat) (i : Nat) : GoResult Nat :=
  if i + 4 ≤ data.length then .ok (beUint32at data i) else .crash

/-- `binary.BigEndian.Uint64(data[i:])`: panics unless eight bytes are available. -/
def readUint64 (data : List Nat) (i : Nat) : GoResult Nat :=
  if i + 8 ≤ data.length then .ok (beUint64at data i) else .crash

/-- `data[i]`: single-byte index, panicking when out of range. -/
def readByte (data : List Nat) (i : Nat) : GoResult Nat :=
  if i < data.length then .ok (data.getD i 0) else .crash

/-- Go `copy(dst, src)`: overwrites the first `min |dst| |src|` elements of
`dst` with those of `src`, leaving the rest of `dst` in place. -/
def goCopy (dst src : List Nat) : List Nat :=
  src.take (min dst.length src.length) ++ dst.drop (min dst.length src.length)

/-- Go `copy(buf[i:], src)`: writes `src` into `buf` at offset `i`, truncated
to the remaining capacity of `buf`.  An offset past the end of `buf` (which
Go slicing would reject and which the code never produces) leaves `buf`
unchanged, keeping the function length-preserving. -/
def writeAt (buf : List Nat) (i : Nat) (src : List Nat) : List Nat :=
  if i ≤ buf.length then buf.take i ++ goCopy (buf.drop i) src else buf

/-- `net.IPv4(a, b, c, d)`: the 16-byte IPv4-in-IPv6 representation. -/
def netIPv4 (a b c d : Nat) : List Nat :=
  [0, 0, 0, 0, 0, 0, 0, 0, 0, 0, 255, 255, a, b, c, d]

/-- `net.IP.To4`: the 4-byte form of an IPv4 address, or `nil` (here `[]`)
when the value is not an IPv4 address. -/
def ipTo4 (ip : List Nat) : List Nat :=
  if ip.length = 4 then ip
  else if ip.length = 16 ∧ ip.take 12 = [0, 0, 0, 0, 0, 0, 0, 0, 0, 0, 255, 255] then ip.drop 12
  else []

theorem goCopy_length (dst src : List Nat) : (goCopy dst src).length = dst.length := by
  simp only [goCopy, List.length_append, List.length_take, List.length_drop]
  omega

theorem writeAt_length (buf : List Nat) (i : Nat) (src : List Nat) :
    (writeAt buf i src).length = buf.length := by
  unfold writeAt
  split_ifs with h
  · simp only [List.length_append, List.length_take, goCopy_length, List.length_drop]
    omega
  · rfl

/-- Monadic sequencing on `GoResult` (errors and panics propagate). -/
def GoResult.bind {α β : Type} : GoResult α → (α → GoResult β) → GoResult β
  | .ok a, f => f a
  | .err e, _ => .err e
  | .crash, _ => .crash

/-- The payload of one OXM TLV: one constructor per concrete Go field type that
`DecodeMatchField` can produce or a match builder can store.  `net.IP` and
`net.HardwareAddr` values are byte lists of the slice's actual length. -/
inductive FieldValue where
  | InPortField (InPort : Nat)
  | InPhyPortField (InPhyPort : Nat)
  | MetadataField (Metadata : Nat)
  | EthDstField (EthDst : List Nat)
  | EthSrcField (EthSrc : List Nat)
  | EthTypeField (EthType : Nat)
  | VlanIdField (VlanId : Nat)
  | VlanPcpField (VlanPcp : Nat)
  | IpDscpField (Dscp : Nat)
  | IpEcnField (IpEcn : Nat)
  | IpProtoField (Protocol : Nat)
  | Ipv4SrcField (Ipv4Src : List Nat)
  | Ipv4DstField (Ipv4Dst : List Nat)
  | PortField (Port : Nat)
  | IcmpTypeField (IcmpType : Nat)
  | IcmpCodeField (Code : Nat)
  | ArpOperField (ArpOper : Nat)
  | ArpXPaField (ArpPa : List Nat)
  | ArpXHaField (ArpHa : List Nat)
  | Ipv6SrcField (Ipv6Src : List Nat)
  | Ipv6DstField (Ipv6Dst : List Nat)
  | Ipv6FLabelField (FLabel : Nat)
  | MplsLabelField (MplsLabel : Nat)
  | MplsTcField (MplsTc : Nat)
  | MplsBosField (MplsBos : Nat)
  | PbbIsidField (PbbIsid : Nat)
  | TunnelIdField (TunnelId : Nat)
  | Ipv6ExtHdrField (Ipv6ExtHdr : Nat)
  | TcpFlagsField (TcpFlags : Nat)
  | ActsetOutputField (OutputPort : Nat)
  | TtlField (Ttl : Nat)
  | TunnelIpv4SrcField (TunnelIpv4Src : List Nat)
  | TunnelIpv4DstField (TunnelIpv4Dst : List Nat)
  | Uint32Message (v : Nat)
  | Uint16Message (v : Nat)
  | ByteArrayField (Length : Nat) (Data : List Nat)
  | CTLabel (Length : Nat) (Data : List Nat)
  deriving DecidableEq, Repr

/-- `Len()` of each concrete field type.  `ByteArrayField.Length` is a Go
`uint8`, hence the `% 256`; all other lengths are the fixed constants returned
by the corresponding Go `Len` methods. -/
def fvLen : FieldValue → Nat
  | .InPortField _ => 4
  | .InPhyPortField _ => 4
  | .MetadataField _ => 8
  | .EthDstField _ => 6
  | .EthSrcField _ => 6
  | .EthTypeField _ => 2
  | .VlanIdField _ => 2
  | .VlanPcpField _ => 1
  | .IpDscpField _ => 1
  | .IpEcnField _ => 1
  | .IpProtoField _ => 1
  | .Ipv4SrcField _ => 4
  | .Ipv4DstField _ => 4
  | .PortField _ => 2
  | .IcmpTypeField _ => 1
  | .IcmpCodeField _ => 1
  | .ArpOperField _ => 2
  | .ArpXPaField _ => 4
  | .ArpXHaField _ => 6
  | .Ipv6SrcField _ => 16
  | .Ipv6DstField _ => 16
  | .Ipv6FLabelField _ => 4
  | .MplsLabelField _ => 4
  | .MplsTcField _ => 1
  | .MplsBosField _ => 1
  | .PbbIsidField _ => 4
  | .TunnelIdField _ => 8
  | .Ipv6ExtHdrField _ => 2
  | .TcpFlagsField _ => 2
  | .ActsetOutputField _ => 4
  | .TtlField _ => 1
  | .TunnelIpv4SrcField _ => 4
  | .TunnelIpv4DstField _ => 4
  | .Uint32Message _ => 4
  | .Uint16Message _ => 2
  | .ByteArrayField n _ => n % 256
  | .CTLabel n _ => n % 256

/-- `MarshalBinary()` of each concrete field type.  Every Go implementation
allocates a buffer of `Len()` zero bytes and copies the value in, so each
marshal is total and returns exactly `fvLen` bytes.  `Uint32Message`,
`Uint16Message`, `ByteArrayField` and `CTLabel` live in files outside `src/`;
their marshals are modelled from the spec (§3: a message serializes to a byte
sequence of exactly its reported length). -/
def fvMarshal : FieldValue → List Nat
  | .InPortField v => putUint32 v
  | .InPhyPortField v => putUint32 v
  | .MetadataField v => putUint64 v
  | .EthDstField mac => goCopy (List.replicate 6 0) mac
  | .EthSrcField mac => goCopy (List.replicate 6 0) mac
  | .EthTypeField v => putUint16 v
  | .VlanIdField v => putUint16 v
  | .VlanPcpField v => [v % 256]
  | .IpDscpField v => [v % 256]
  | .IpEcnField v => [v % 256]
  | .IpProtoField v => [v % 256]
  | .Ipv4SrcField ip => goCopy (List.replicate 4 0) (ipTo4 ip)
  | .Ipv4DstField ip => goCopy (List.replicate 4 0) (ipTo4 ip)
  | .PortField v => putUint16 v
  | .IcmpTypeField v => [v % 256]
  | .IcmpCodeField v => [v % 256]
  | .ArpOperField v => putUint16 v
  | .ArpXPaField ip => goCopy (List.replicate 4 0) (ipTo4 ip)
  | .ArpXHaField mac => goCopy (List.replicate 6 0) mac
  | .Ipv6SrcField ip => goCopy (List.replicate 16 0) ip
  | .Ipv6DstField ip => goCopy (List.replicate 16 0) ip
  | .Ipv6FLabelField v => putUint32 v
  | .MplsLabelField v => putUint32 v
  | .MplsTcField v => [v % 256]
  | .MplsBosField v => [v % 256]
  | .PbbIsidField v => putUint32 v
  | .TunnelIdField v => putUint64 v
  | .Ipv6ExtHdrField v => putUint16 v
  | .TcpFlagsField v => putUint16 v
  | .ActsetOutputField v => putUint32 v
  | .TtlField v => [v % 256]
  | .TunnelIpv4SrcField ip => goCopy (List.replicate 4 0) (ipTo4 ip)
  | .TunnelIpv4DstField ip => goCopy (List.replicate 4 0) (ipTo4 ip)
  | .Uint32Message v => putUint32 v
  | .Uint16Message v => putUint16 v
  | .ByteArrayField n d => d.take (n % 256) ++ List.replicate (n % 256 - d.length) 0
  | .CTLabel n d => d.take (n % 256) ++ List.replicate (n % 256 - d.length) 0

/-- `InPortField.UnmarshalBinary`: unchecked big-endian `uint32` read. -/
def InPortField.UnmarshalBinary (data : List Nat) : GoResult FieldValue :=
  (readUint32 data 0).bind fun v => .ok (.InPortField v)

/-- `InPhyPortField.UnmarshalBinary`: unchecked big-endian `uint32` read. -/
def InPhyPortField.UnmarshalBinary (data : List Nat) : GoResult FieldValue :=
  (readUint32 data 0).bind fun v => .ok (.InPhyPortField v)

/-- `MetadataField.UnmarshalBinary`: unchecked big-endian `uint64` read. -/
def MetadataField.UnmarshalBinary (data : List Nat) : GoResult FieldValue :=
  (readUint64 data 0).bind fun v => .ok (.MetadataField v)

/-- `EthDstField.UnmarshalBinary`: `copy(m.EthDst, data)` — copies into the
receiver's existing buffer (`EthDst` parameter) without allocating, so a
freshly allocated receiver (`EthDst = []`, as produced by `DecodeMatchField`)
keeps a nil address.  Never returns an error. -/
def EthDstField.UnmarshalBinary (EthDst data : List Nat) : GoResult FieldValue :=
  .ok (.EthDstField (goCopy EthDst data))

/-- `EthSrcField.UnmarshalBinary`: same copy-into-receiver behaviour. -/
def EthSrcField.UnmarshalBinary (EthSrc data : List Nat) : GoResult FieldValue :=
  .ok (.EthSrcField (goCopy EthSrc data))

/-- `EthTypeField.UnmarshalBinary`: unchecked big-endian `uint16` read. -/
def EthTypeField.UnmarshalBinary (data : List Nat) : GoResult FieldValue :=
  (readUint16 data 0).bind fun v => .ok (.EthTypeField v)

/-- `VlanIdField.UnmarshalBinary`: unchecked big-endian `uint16` read. -/
def VlanIdField.UnmarshalBinary (data : List Nat) : GoResult FieldValue :=
  (readUint16 data 0).bind fun v => .ok (.VlanIdField v)

/-- `VlanPcpField.UnmarshalBinary`: unchecked `data[0]` read. -/
def VlanPcpField.UnmarshalBinary (data : List Nat) : GoResult FieldValue :=
  (readByte data 0).bind fun v => .ok (.VlanPcpField v)

/-- `IpDscpField.UnmarshalBinary`: unchecked `data[0]` read. -/
def IpDscpField.UnmarshalBinary (data : List Nat) : GoResult FieldValue :=
  (readByte data 0).bind fun v => .ok (.IpDscpField v)

/-- `IpEcnField.UnmarshalBinary`: unchecked `data[0]` read. -/
def IpEcnField.UnmarshalBinary (data : List Nat) : GoResult FieldValue :=
  (readByte data 0).bind fun v => .ok (.IpEcnField v)

/-- `IpProtoField.UnmarshalBinary`: unchecked `data[0]` read. -/
def IpProtoField.UnmarshalBinary (data : List Nat) : GoResult FieldValue :=
  (readByte data 0).bind fun v => .ok (.IpProtoField v)

/-- `Ipv4SrcField.UnmarshalBinary`: `net.IPv4(data[0], data[1], data[2],
data[3])`, panicking when fewer than four bytes are available. -/
def Ipv4SrcField.UnmarshalBinary (data : List Nat) : GoResult FieldValue :=
  if 4 ≤ data.length then
    .ok (.Ipv4SrcField (netIPv4 (data.getD 0 0) (data.getD 1 0) (data.getD 2 0) (data.getD 3 0)))
  else .crash

/-- `Ipv4DstField.UnmarshalBinary`: like `Ipv4SrcField.UnmarshalBinary`. -/
def Ipv4DstField.UnmarshalBinary (data : List Nat) : GoResult FieldValue :=
  if 4 ≤ data.length then
    .ok (.Ipv4DstField (netIPv4 (data.getD 0 0) (data.getD 1 0) (data.getD 2 0) (data.getD 3 0)))
  else .crash

/-- `PortField.UnmarshalBinary`: unchecked big-endian `uint16` read. -/
def PortField.UnmarshalBinary (data : List Nat) : GoResult FieldValue :=
  (readUint16 data 0).bind fun v => .ok (.PortField v)

/-- `IcmpTypeField.UnmarshalBinary`: explicit short-buffer check, then `data[0]`. -/
def IcmpTypeField.UnmarshalBinary (data : List Nat) : GoResult FieldValue :=
  if data.length < 1 then .err .shortBuffer else .ok (.IcmpTypeField (data.getD 0 0))

/-- `IcmpCodeField.UnmarshalBinary`: explicit short-buffer check, then `data[0]`. -/
def IcmpCodeField.UnmarshalBinary (data : List Nat) : GoResult FieldValue :=
  if data.length < 1 then .err .shortBuffer else .ok (.IcmpCodeField (data.getD 0 0))

/-- `ArpOperField.UnmarshalBinary`: unchecked big-endian `uint16` read. -/
def ArpOperField.UnmarshalBinary (data : List Nat) : GoResult FieldValue :=
  (readUint16 data 0).bind fun v => .ok (.ArpOperField v)

/-- `ArpXPaField.UnmarshalBinary`: explicit short-buffer check, then
`net.IPv4` of the first four bytes. -/
def ArpXPaField.UnmarshalBinary (data : List Nat) : GoResult FieldValue :=
  if data.length < 4 then .err .shortBuffer
  else .ok (.ArpXPaField (netIPv4 (data.getD 0 0) (data.getD 1 0) (data.getD 2 0) (data.getD 3 0)))

/-- `ArpXHaField.UnmarshalBinary`: explicit short-buffer check, then
`copy(m.ArpHa, data[:6])` into the receiver's existing buffer (`ArpHa`
parameter; `[]` for a freshly allocated receiver). -/
def ArpXHaField.UnmarshalBinary (ArpHa data : List Nat) : GoResult FieldValue :=
  if data.length < 6 then .err .shortBuffer
  else .ok (.ArpXHaField (goCopy ArpHa (data.take 6)))

/-- `Ipv6SrcField.UnmarshalBinary`: allocates 16 bytes, then copies whatever
is available (no length check). -/
def Ipv6SrcField.UnmarshalBinary (data : List Nat) : GoResult FieldValue :=
  .ok (.Ipv6SrcField (goCopy (List.replicate 16 0) data))

/-- `Ipv6DstField.UnmarshalBinary`: allocates 16 bytes, then copies whatever
is available (no length check). -/
def Ipv6DstField.UnmarshalBinary (data : List Nat) : GoResult FieldValue :=
  .ok (.Ipv6DstField (goCopy (List.replicate 16 0) data))

/-- `Ipv6FLabelField.UnmarshalBinary`: explicit short-buffer check, then a
big-endian `uint32` read. -/
def Ipv6FLabelField.UnmarshalBinary (data : List Nat) : GoResult FieldValue :=
  if data.length < 4 then .err .shortBuffer else .ok (.Ipv6FLabelField (beUint32at data 0))

/-- `MplsLabelField.UnmarshalBinary`: unchecked big-endian `uint32` read. -/
def MplsLabelField.UnmarshalBinary (data : List Nat) : GoResult FieldValue :=
  (readUint32 data 0).bind fun v => .ok (.MplsLabelField v)

/-- `MplsTcField.UnmarshalBinary`: unchecked `data[0]` read. -/
def MplsTcField.UnmarshalBinary (data : List Nat) : GoResult FieldValue :=
  (readByte data 0).bind fun v => .ok (.MplsTcField v)

/-- `MplsBosField.UnmarshalBinary`: unchecked `data[0]` read. -/
def MplsBosField.UnmarshalBinary (data : List Nat) : GoResult FieldValue :=
  (readByte data 0).bind fun v => .ok (.MplsBosField v)

/-- `PbbIsidField.UnmarshalBinary`: explicit short-buffer check, then a
big-endian `uint32` read. -/
def PbbIsidField.UnmarshalBinary (data : List Nat) : GoResult FieldValue :=
  if data.length < 4 then .err .shortBuffer else .ok (.PbbIsidField (beUint32at data 0))

/-- `TunnelIdField.UnmarshalBinary`: unchecked big-endian `uint64` read. -/
def TunnelIdField.UnmarshalBinary (data : List Nat) : GoResult FieldValue :=
  (readUint64 data 0).bind fun v => .ok (.TunnelIdField v)

/-- `Ipv6ExtHdrField.UnmarshalBinary`: explicit short-buffer check, then a
big-endian `uint16` read. -/
def Ipv6ExtHdrField.UnmarshalBinary (data : List Nat) : GoResult FieldValue :=
  if data.length < 2 then .err .shortBuffer else .ok (.Ipv6ExtHdrField (beUint16at data 0))

/-- `TcpFlagsField.UnmarshalBinary`: unchecked big-endian `uint16` read. -/
def TcpFlagsField.UnmarshalBinary (data : List Nat) : GoResult FieldValue :=
  (readUint16 data 0).bind fun v => .ok (.TcpFlagsField v)

/-- `ActsetOutputField.UnmarshalBinary`: unchecked big-endian `uint32` read. -/
def ActsetOutputField.UnmarshalBinary (data : List Nat) : GoResult FieldValue :=
  (readUint32 data 0).bind fun v => .ok (.ActsetOutputField v)

/-- `TtlField.UnmarshalBinary`: explicit short-buffer check, then `data[0]`. -/
def TtlField.UnmarshalBinary (data : List Nat) : GoResult FieldValue :=
  if data.length < 1 then .err .shortBuffer else .ok (.TtlField (data.getD 0 0))

/-- `TunnelIpv4SrcField.UnmarshalBinary`: `net.IPv4` of the first four bytes,
panicking when fewer are available. -/
def TunnelIpv4SrcField.UnmarshalBinary (data : List Nat) : GoResult FieldValue :=
  if 4 ≤ data.length then
    .ok (.TunnelIpv4SrcField
      (netIPv4 (data.getD 0 0) (data.getD 1 0) (data.getD 2 0) (data.getD 3 0)))
  else .crash

/-- `TunnelIpv4DstField.UnmarshalBinary`: like `TunnelIpv4SrcField`. -/
def TunnelIpv4DstField.UnmarshalBinary (data : List Nat) : GoResult FieldValue :=
  if 4 ≤ data.length then
    .ok (.TunnelIpv4DstField
      (netIPv4 (data.getD 0 0) (data.getD 1 0) (data.getD 2 0) (data.getD 3 0)))
  else .crash

/-- Modelled from the spec: `util.Uint32Message` is defined outside `src/`.
Spec §4.1: a big-endian fixed-width reader that fails with short-buffer when
fewer bytes than required are available. -/
def Uint32Message.UnmarshalBinary (data : List Nat) : GoResult FieldValue :=
  if data.length < 4 then .err .shortBuffer else .ok (.Uint32Message (beUint32at data 0))

/-- Modelled from the spec: `util.Uint16Message` is defined outside `src/`.
Spec §4.1: a big-endian fixed-width reader that fails with short-buffer when
fewer bytes than required are available. -/
def Uint16Message.UnmarshalBinary (data : List Nat) : GoResult FieldValue :=
  if data.length < 2 then .err .shortBuffer else .ok (.Uint16Message (beUint16at data 0))

/-- Modelled from the spec: `util.ByteArrayField` is defined outside `src/`.
Spec §4.1: it stores a fixed-length buffer whose `Length` attribute is the
payload length, and fails with short-buffer when fewer bytes are available.
The receiver's `Length` (a `uint8`) is set by `DecodeMatchField` before the
call, so it is a parameter here. -/
def ByteArrayField.UnmarshalBinary (Length : Nat) (data : List Nat) : GoResult FieldValue :=
  if data.length < Length % 256 then .err .shortBuffer
  else .ok (.ByteArrayField Length (data.take (Length % 256)))

/-- Modelled from the spec: the `CTLabel` type is defined outside `src/`.
Spec §4.2 groups `CT_LABEL` with the byte-array-shaped fields: the allocated
payload size is `header.length / 2` if masked else `header.length`, and the
reported `Len()` equals that per-side size.  The per-side size is computed by
the caller and passed as `Length`. -/
def CTLabel.UnmarshalBinary (Length : Nat) (data : List Nat) : GoResult FieldValue :=
  if data.length < Length % 256 then .err .shortBuffer
  else .ok (.CTLabel Length (data.take (Length % 256)))

/-- ofp_match_type: `MatchType_OXM`. -/
def MatchType_OXM : Nat := 1

/-- ofp_oxm_class constants. -/
def OXM_CLASS_NXM_0 : Nat := 0x0000

def OXM_CLASS_NXM_1 : Nat := 0x0001

def OXM_CLASS_OPENFLOW_BASIC : Nat := 0x8000

def OXM_CLASS_PACKET_REGS : Nat := 0x8001

def OXM_CLASS_EXPERIMENTER : Nat := 0xFFFF

def ONF_EXPERIMENTER_ID : Nat := 0x4f4e4600

/-- `DecodeMatchField(class, field, length, hasMask, data)`.

Mirrors the four class branches of the Go function.  Within a branch, a
consecutive range of `case` labels that all build the same value (`NXM_NX_REG0
… NXM_NX_REG15`, `NXM_NX_TUN_METADATA0 … 7`, `NXM_NX_XXREG0 … 3`,
`OXM_PACKET_REG0 … 7`) is written as one interval test.  An enumerated `case`
label with an empty body (`NXM_NX_TUN_ID`, `NXM_NX_IP_FRAG`,
`NXM_NX_IPV6_LABEL`, `NXM_NX_IP_ECN`, `NXM_NX_MPLS_TTL`, `NXM_NX_TCP_FLAGS`,
`NXM_NX_DP_HASH`, `NXM_NX_RECIRC_ID`, `NXM_NX_TUN_GBP_ID`,
`NXM_NX_TUN_GBP_FLAGS`, `NXM_NX_TUN_FLAGS`) leaves `val` a nil interface, so
the subsequent `val.UnmarshalBinary(data)` is a nil-interface method call:
a Go runtime panic, modelled as `.crash`.  A `default` label returns the
unknown-field error.  For the byte-array shapes the receiver's `Length` is
`length` (unmasked) or `length / 2` (masked) before unmarshaling. -/
def DecodeMatchField (cls fld length : Nat) (hasMask : Bool) (data : List Nat) :
    GoResult FieldValue :=
  if cls = OXM_CLASS_OPENFLOW_BASIC then
    if fld = 0 then InPortField.UnmarshalBinary data
    else if fld = 1 then InPhyPortField.UnmarshalBinary data
    else if fld = 2 then MetadataField.UnmarshalBinary data
    else if fld = 3 then EthDstField.UnmarshalBinary [] data
    else if fld = 4 then EthSrcField.UnmarshalBinary [] data
    else if fld = 5 then EthTypeField.UnmarshalBinary data
    else if fld = 6 then VlanIdField.UnmarshalBinary data
    else if fld = 7 then VlanPcpField.UnmarshalBinary data
    else if fld = 8 then IpDscpField.UnmarshalBinary data
    else if fld = 9 then IpEcnField.UnmarshalBinary data
    else if fld = 10 then IpProtoField.UnmarshalBinary data
    else if fld = 11 then Ipv4SrcField.UnmarshalBinary data
    else if fld = 12 then Ipv4DstField.UnmarshalBinary data
    else if 13 ≤ fld ∧ fld ≤ 18 then PortField.UnmarshalBinary data
    else if fld = 19 then IcmpTypeField.UnmarshalBinary data
    else if fld = 20 then IcmpCodeField.UnmarshalBinary data
    else if fld = 21 then ArpOperField.UnmarshalBinary data
    else if fld = 22 ∨ fld = 23 then ArpXPaField.UnmarshalBinary data
    else if fld = 24 ∨ fld = 25 then ArpXHaField.UnmarshalBinary [] data
    else if fld = 26 then Ipv6SrcField.UnmarshalBinary data
    else if fld = 27 then Ipv6DstField.UnmarshalBinary data
    else if fld = 28 then Ipv6FLabelField.UnmarshalBinary data
    else if fld = 29 then IcmpTypeField.UnmarshalBinary data
    else if fld = 30 then IcmpCodeField.UnmarshalBinary data
    else if fld = 31 then Ipv6DstField.UnmarshalBinary data
    else if fld = 32 then EthSrcField.UnmarshalBinary [] data
    else if fld = 33 then EthDstField.UnmarshalBinary [] data
    else if fld = 34 then MplsLabelField.UnmarshalBinary data
    else if fld = 35 then MplsTcField.UnmarshalBinary data
    else if fld = 36 then MplsBosField.UnmarshalBinary data
    else if fld = 37 then PbbIsidField.UnmarshalBinary data
    else if fld = 38 then TunnelIdField.UnmarshalBinary data
    else if fld = 39 then Ipv6ExtHdrField.UnmarshalBinary data
    else if fld = 42 then TcpFlagsField.UnmarshalBinary data
    else if fld = 43 then ActsetOutputField.UnmarshalBinary data
    else .err .unknownField
  else if cls = OXM_CLASS_NXM_1 then
    if fld ≤ 15 then Uint32Message.UnmarshalBinary data
    else if fld = 16 then .crash
    else if fld = 17 ∨ fld = 18 then ArpXHaField.UnmarshalBinary [] data
    else if fld = 19 then Ipv6SrcField.UnmarshalBinary data
    else if fld = 20 then Ipv6DstField.UnmarshalBinary data
    else if fld = 21 then IcmpTypeField.UnmarshalBinary data
    else if fld = 22 then IcmpCodeField.UnmarshalBinary data
    else if fld = 23 then Ipv6DstField.UnmarshalBinary data
    else if fld = 24 then EthDstField.UnmarshalBinary [] data
    else if fld = 25 then EthSrcField.UnmarshalBinary [] data
    else if fld = 26 then .crash
    else if fld = 27 then .crash
    else if fld = 28 then .crash
    else if fld = 29 then TtlField.UnmarshalBinary data
    else if fld = 30 then .crash
    else if fld = 31 then TunnelIpv4SrcField.UnmarshalBinary data
    else if fld = 32 then TunnelIpv4DstField.UnmarshalBinary data
    else if fld = 33 then Uint32Message.UnmarshalBinary data
    else if fld = 34 then .crash
    else if fld = 35 then .crash
    else if fld = 36 then .crash
    else if fld = 37 then Uint32Message.UnmarshalBinary data
    else if fld = 38 then .crash
    else if fld = 39 then .crash
    else if 40 ≤ fld ∧ fld ≤ 47 then
      ByteArrayField.UnmarshalBinary (if hasMask then length / 2 else length) data
    else if fld = 104 then .crash
    else if fld = 105 then Uint32Message.UnmarshalBinary data
    else if fld = 106 then Uint16Message.UnmarshalBinary data
    else if fld = 107 then Uint32Message.UnmarshalBinary data
    else if fld = 108 then
      CTLabel.UnmarshalBinary (if hasMask then length / 2 else length) data
    else if fld = 109 then Ipv6SrcField.UnmarshalBinary data
    else if fld = 110 then Ipv6DstField.UnmarshalBinary data
    else if 111 ≤ fld ∧ fld ≤ 114 then
      ByteArrayField.UnmarshalBinary (if hasMask then length / 2 else length) data
    else if fld = 119 then IpProtoField.UnmarshalBinary data
    else if fld = 120 then Ipv4SrcField.UnmarshalBinary data
    else if fld = 121 then Ipv4DstField.UnmarshalBinary data
    else if fld = 122 then Ipv6SrcField.UnmarshalBinary data
    else if fld = 123 then Ipv6DstField.UnmarshalBinary data
    else if fld = 124 ∨ fld = 125 then PortField.UnmarshalBinary data
    else .err .unknownField
  else if cls = OXM_CLASS_PACKET_REGS then
    if fld ≤ 7 then
      ByteArrayField.UnmarshalBinary (if hasMask then length / 2 else length) data
    else .err .unknownField
  else if cls = OXM_CLASS_EXPERIMENTER then
    if fld = 42 then TcpFlagsField.UnmarshalBinary data
    else .err .unknownField
  else .err .unknownField

/-- One match field TLV (`Class`/`Field`/`HasMask`/`Length`/`ExperimenterID`
are the Go `uint16`/`uint8`/`bool`/`uint8`/`uint32` fields; `Mask` is `none`
where the Go interface value is nil). -/
structure MatchField where
  Class : Nat
  Field : Nat
  HasMask : Bool
  Length : Nat
  ExperimenterID : Nat
  Value : FieldValue
  Mask : Option FieldValue
  deriving DecidableEq, Repr

/-- `MatchField.Len`: 4 header bytes, 4 more when an experimenter id is set,
plus the value's and (when `HasMask`) the mask's `Len()`.  Go would panic on
`HasMask` with a nil `Mask` (`m.Mask.Len()` on a nil interface); the `getD 0`
branch is never reached by code that maintains `HasMask → Mask ≠ none`. -/
def MatchField.Len (m : MatchField) : Nat :=
  4 + (if m.ExperimenterID ≠ 0 then 4 else 0) + fvLen m.Value +
    (if m.HasMask then (m.Mask.map fvLen).getD 0 else 0)

/-- `MatchField.MarshalBinary`: allocates `Len()` zero bytes, then writes the
class (2 bytes), the packed field/mask byte `(Field << 1) | hasMask`, the
`Length` byte, the value payload at offset 4, and the mask payload right after
it.  The experimenter id is never written (the allocated tail stays zero).
Marshaling a `HasMask` field with a nil `Mask` is a nil-interface call: `.crash`. -/
def MatchField.MarshalBinary (m : MatchField) : GoResult (List Nat) :=
  let buf0 := List.replicate m.Len 0
  let fldByte := if m.HasMask then (m.Field * 2 + 1) % 256 else m.Field * 2 % 256
  let buf3 := writeAt (writeAt (writeAt buf0 0 (putUint16 m.Class)) 2 [fldByte]) 3 [m.Length % 256]
  let vb := fvMarshal m.Value
  let buf4 := writeAt buf3 4 vb
  if m.HasMask then
    match m.Mask with
    | some msk => .ok (writeAt buf4 (4 + vb.length) (fvMarshal msk))
    | none => .crash
  else .ok buf4

/-- `MatchField.UnmarshalBinary`: reads the 4-byte header (panicking Go-style
when the slice is shorter), reads and verifies the experimenter id for the
experimenter class, then decodes the value and, when `has_mask` is set, a mask
of the same shape. -/
def MatchField.UnmarshalBinary (data : List Nat) : GoResult MatchField :=
  (readUint16 data 0).bind fun cls =>
  (readByte data 2).bind fun fld =>
  (readByte data 3).bind fun len =>
  let hasMask := fld % 2 == 1
  let field := fld / 2
  (if cls = OXM_CLASS_EXPERIMENTER then
      (readUint32 data 4).bind fun expId =>
        if expId = ONF_EXPERIMENTER_ID then .ok (expId, 8)
        else .err .unsupportedExperimenter
    else .ok (0, 4)).bind fun p =>
  (DecodeMatchField cls field len hasMask (data.drop p.2)).bind fun value =>
  if hasMask then
    (DecodeMatchField cls field len hasMask (data.drop (p.2 + fvLen value))).bind fun mask =>
    .ok ⟨cls, field, hasMask, len, p.1, value, some mask⟩
  else .ok ⟨cls, field, hasMask, len, p.1, value, none⟩

/-- `MatchField.UnmarshalHeader`: explicit short-buffer check, then the
4-byte OXM header `(Class, Field, HasMask, Length)`. -/
def MatchField.UnmarshalHeader (data : List Nat) : GoResult (Nat × Nat × Bool × Nat) :=
  if data.length < 4 then .err .shortBuffer
  else .ok (beUint16at data 0, data.getD 2 0 / 2, data.getD 2 0 % 2 == 1, data.getD 3 0)

/-- ofp_match 1.5 (`Type_` is the Go field `Type`). -/
structure Match where
  Type_ : Nat
  Length : Nat
  Fields : List MatchField
  deriving DecidableEq, Repr

/-- `NewMatch`: OXM type, inner length 4, no fields. -/
def NewMatch : Match := ⟨MatchType_OXM, 4, []⟩

/-- `Match.Len`: `4 + Σ field.Len()` rounded up to the next multiple of 8,
in `uint16` arithmetic. -/
def Match.Len (m : Match) : Nat :=
  (m.Fields.foldl (fun acc f => (acc + f.Len) % 65536) 4 + 7) % 65536 / 8 * 8

/-- `Match.AddField`: appends the field and adds its `Len()` to the stored
inner length (a `uint16`). -/
def Match.AddField (m : Match) (f : MatchField) : Match :=
  ⟨m.Type_, (m.Length + f.Len) % 65536, m.Fields ++ [f]⟩

/-- The field-marshaling loop of `Match.MarshalBinary`: each field's bytes are
copied into the buffer at the running offset. -/
def marshalFieldsInto : List MatchField → List Nat → Nat → GoResult (List Nat)
  | [], buf, _ => .ok buf
  | f :: fs, buf, n =>
    (f.MarshalBinary).bind fun b => marshalFieldsInto fs (writeAt buf n b) (n + b.length)

/-- `Match.MarshalBinary`: allocates `Len()` zero bytes (so the tail past the
inner length is zero padding), writes `Type`, the stored inner `Length`, then
the fields in order. -/
def Match.MarshalBinary (m : Match) : GoResult (List Nat) :=
  let buf := writeAt (writeAt (List.replicate m.Len 0) 0 (putUint16 m.Type_)) 2
    (putUint16 m.Length)
  marshalFieldsInto m.Fields buf 4

/-- The field-parsing loop of `Match.UnmarshalBinary`: parse successive match
fields while the cursor is below the inner length.  The first argument is
fuel; each parsed field advances the cursor by `Len() ≥ 4`, so fuel
`len + 1` can never run out before the loop condition fails. -/
def parseFields (data : List Nat) (len : Nat) : Nat → Nat → GoResult (List MatchField)
  | 0, _ => .ok []
  | fuel + 1, n =>
    if n < len then
      (MatchField.UnmarshalBinary (data.drop n)).bind fun f =>
      (parseFields data len fuel (n + f.Len)).bind fun fs => .ok (f :: fs)
    else .ok []

/-- `Match.UnmarshalBinary`: reads `Type` and the inner `Length` (panicking
Go-style when fewer than 4 bytes are available), then the field loop. -/
def Match.UnmarshalBinary (data : List Nat) : GoResult Match :=
  (readUint16 data 0).bind fun ty =>
  (readUint16 data 2).bind fun len =>
  (parseFields data len (len + 1) 4).bind fun fields => .ok ⟨ty, len, fields⟩

/-- `NewInPortField`: OpenFlow basic IN_PORT, no mask. -/
def NewInPortField (inPort : Nat) : MatchField :=
  ⟨OXM_CLASS_OPENFLOW_BASIC, 0, false, 4, 0, .InPortField (inPort % 4294967296), none⟩

/-- `NewEthDstField`: OpenFlow basic ETH_DST with optional mask; `Length` is 6,
or 12 when a mask is attached. -/
def NewEthDstField (ethDst : List Nat) (ethDstMask : Option (List Nat)) : MatchField :=
  match ethDstMask with
  | none => ⟨OXM_CLASS_OPENFLOW_BASIC, 3, false, 6, 0, .EthDstField ethDst, none⟩
  | some msk => ⟨OXM_CLASS_OPENFLOW_BASIC, 3, true, 12, 0, .EthDstField ethDst,
      some (.EthDstField msk)⟩

/-- `NewVlanPcpField`: OpenFlow basic VLAN_PCP; the passed PCP (a `uint8`) is
stored in the field value. -/
def NewVlanPcpField (vlanPcp : Nat) : MatchField :=
  ⟨OXM_CLASS_OPENFLOW_BASIC, 7, false, 1, 0, .VlanPcpField (vlanPcp % 256), none⟩

/-- `NewIpEcnField`: OpenFlow basic IP_ECN.  The Go builder allocates a fresh
`IpEcnField` and never stores its `vlanPcp` argument in it, so the value is
the zero value regardless of the argument. -/
def NewIpEcnField (vlanPcp : Nat) : MatchField :=
  ⟨OXM_CLASS_OPENFLOW_BASIC, 9, false, 1, 0, .IpEcnField 0, none⟩

/-- `binary.BigEndian.PutUint32(buf[i:i+4], v)`: in-place big-endian store. -/
def putUint32at (buf : List Nat) (i v : Nat) : List Nat :=
  writeAt buf i (putUint32 v)

/-- Outcome of the header-decoding step of `MessageStream.inbound` for one
message: either `wait` (a `break` out of the loop, pending more bytes) or the
decoded total length together with the (possibly sentinel-rewritten) buffer. -/
inductive LenDecode where
  | wait
  | known (totalLen : Nat) (buf : List Nat)
  deriving DecidableEq, Repr

/-- The `totalLen == 0` branch of `MessageStream.inbound` (stream.go
l.144-174): reads `msgType = buf[1]` and `totalLen = u16(buf[2:4])`; for an
Experimenter message (`msgType == 4`) with a buffered `u32(buf[12:16]) == 30`
(PacketIn2) whose first property is `NXPINT_PACKET` (`u16(buf[16:18]) == 0`),
compares `totalLen` with `pktLength = u16(buf[18:20])` and, when the declared
length is smaller, adds `1 << 16` and overwrites `buf[8:12]` with the sentinel
`0x10002320`.  The intermediate `buf.Len() < 16` / `< 20` checks `break` out
to read more bytes (`wait`).  Callers only enter with `buf.Len() ≥ 4`. -/
def decodeMsgLen (buf : List Nat) : LenDecode :=
  let msgType := buf.getD 1 0
  let totalLen := beUint16at buf 2
  if msgType = 4 then
    if buf.length < 16 then .wait
    else
      let experimenterType := beUint32at buf 12
      if experimenterType = 30 then
        if buf.length < 20 then .wait
        else
          let pktProp := beUint16at buf 16
          if pktProp = 0 then
            let pktLength := beUint16at buf 18
            if totalLen < pktLength then
              .known (totalLen + 65536) (putUint32at buf 8 0x10002320)
            else .known totalLen buf
          else .known totalLen buf
      else .known totalLen buf
  else .known totalLen buf

/-- Resolution of the per-message length state at the top of the loop body:
when `totalLen` is still 0 the header is decoded, otherwise the previously
decoded length stands. -/
def resolveLen (buf : List Nat) (totalLen : Nat) : LenDecode :=
  if totalLen = 0 then decodeMsgLen buf else .known totalLen buf

/-- Observable outcome of running the `inbound` loop on the current buffer:
the frames dispatched to workers (in order), the fatal invalid-length error
published on the `Error` channel (followed by a `Shutdown` signal) if one
occurred, and the residual buffer and length state. -/
structure ProcessOut where
  frames : List (List Nat)
  error : Option Nat
  buf : List Nat
  totalLen : Nat
  deriving DecidableEq, Repr

/-- Fuel-indexed form of the `for buf.Len() >= 4` loop of
`MessageStream.inbound` (stream.go l.143-209): decode the length when unknown,
fail fatally when `totalLen < 8`, wait when the buffer holds less than one
frame, otherwise consume `totalLen` bytes as a frame and continue.  Each
dispatched frame consumes `totalLen ≥ 8` bytes, so any fuel exceeding the
buffer length is enough. -/
def inboundF : Nat → List Nat → Nat → ProcessOut
  | 0, buf, totalLen => ⟨[], none, buf, totalLen⟩
  | fuel + 1, buf, totalLen =>
    if buf.length < 4 then ⟨[], none, buf, totalLen⟩
    else
      match resolveLen buf totalLen with
      | .wait => ⟨[], none, buf, 0⟩
      | .known L b =>
        if L < 8 then ⟨[], some L, b, L⟩
        else if b.length < L then ⟨[], none, b, L⟩
        else
          let o := inboundF fuel (b.drop L) 0
          ⟨b.take L :: o.frames, o.error, o.buf, o.totalLen⟩

/-- The `inbound` loop on a buffer and length state, with enough fuel. -/
def inboundProcess (buf : List Nat) (totalLen : Nat) : ProcessOut :=
  inboundF (buf.length + 1) buf totalLen

/-- Feeding successive reads (`chunks`) from the connection to the `inbound`
loop: each chunk is appended to the residual buffer and the loop runs; a
fatal error stops the reader. -/
def feedChunks : List (List Nat) → List Nat → Nat → ProcessOut
  | [], buf, totalLen => ⟨[], none, buf, totalLen⟩
  | c :: cs, buf, totalLen =>
    let o := inboundProcess (buf ++ c) totalLen
    match o.error with
    | some e => ⟨o.frames, some e, o.buf, o.totalLen⟩
    | none =>
      let o2 := feedChunks cs o.buf o.totalLen
      ⟨o.frames ++ o2.frames, o2.error, o2.buf, o2.totalLen⟩

/-- C1: the OXM round-trip claim fails on the code.  For the ETH_DST field
built from MAC `01:02:03:04:05:06` (admitted by the dispatch table),
`MatchField.MarshalBinary` emits the correct TLV, but
`MatchField.UnmarshalBinary` of those bytes copies the address into the
freshly allocated receiver's nil buffer, so the decoded field carries an
empty address and differs from the original. -/
theorem ethDst_roundtrip_drops_address :
    (NewEthDstField [1, 2, 3, 4, 5, 6] none).MarshalBinary =
      .ok [128, 0, 6, 6, 1, 2, 3, 4, 5, 6] ∧
    MatchField.UnmarshalBinary [128, 0, 6, 6, 1, 2, 3, 4, 5, 6] =
      .ok ⟨32768, 3, false, 6, 0, .EthDstField [], none⟩ ∧
    (⟨32768, 3, false, 6, 0, .EthDstField [], none⟩ : MatchField) ≠
      NewEthDstField [1, 2, 3, 4, 5, 6] none := by
  refine ⟨by decide, by decide, by decide⟩

/-- C2: the match round-trip claim fails on the code.  For the constructable
match `NewMatch.AddField (NewEthDstField 01:02:03:04:05:06 none)`, the
marshaled block has length 16 (a multiple of 8) and zero padding past the
inner length 14, but `Match.UnmarshalBinary` reconstructs a match whose
ETH_DST field has an empty address, so the round-trip is not the identity. -/
theorem match_roundtrip_drops_eth_dst :
    (NewMatch.AddField (NewEthDstField [1, 2, 3, 4, 5, 6] none)).MarshalBinary =
      .ok [0, 1, 0, 14, 128, 0, 6, 6, 1, 2, 3, 4, 5, 6, 0, 0] ∧
    ([0, 1, 0, 14, 128, 0, 6, 6, 1, 2, 3, 4, 5, 6, 0, 0] : List Nat).length % 8 = 0 ∧
    ([0, 1, 0, 14, 128, 0, 6, 6, 1, 2, 3, 4, 5, 6, 0, 0] : List Nat).drop 14 = [0, 0] ∧
    Match.UnmarshalBinary [0, 1, 0, 14, 128, 0, 6, 6, 1, 2, 3, 4, 5, 6, 0, 0] =
      .ok ⟨1, 14, [⟨32768, 3, false, 6, 0, .EthDstField [], none⟩]⟩ ∧
    (⟨1, 14, [⟨32768, 3, false, 6, 0, .EthDstField [], none⟩]⟩ : Match) ≠
      NewMatch.AddField (NewEthDstField [1, 2, 3, 4, 5, 6] none) := by
  refine ⟨by decide, by decide, by decide, by decide, by decide⟩

/-- C6: the claim that every combination outside the dispatch table yields the
unknown-oxm-field error fails on the code.  `NXM_NX_TUN_ID` (class NXM_1,
field 16) is an enumerated case with an empty body: `val` stays a nil
interface and `val.UnmarshalBinary(data)` is a nil-interface method call — a
runtime panic, not an error return. -/
theorem decode_tun_id_crashes :
    DecodeMatchField OXM_CLASS_NXM_1 16 8 false [0, 0, 0, 0, 0, 0, 0, 0] = .crash ∧
    (GoResult.crash : GoResult FieldValue) ≠ .err .unknownField := by
  refine ⟨by decide, by decide⟩

/-- C10 counterexample: `NewVlanPcpField` does NOT ignore its input — the
marshaled value payloads for the distinct PCP arguments 1 and 2 differ,
contrary to the claim. -/
theorem vlanPcp_builder_uses_input :
    fvMarshal (NewVlanPcpField 1).Value ≠ fvMarshal (NewVlanPcpField 2).Value := by
  decide

/-- C10 amended: it is the IP_ECN builder (`NewIpEcnField`), not the VLAN_PCP
builder, that ignores its input: its marshaled value payload is the same for
every pair of arguments, while `NewVlanPcpField` emits the passed PCP. -/
theorem ipEcn_builder_ignores_input (a b : Nat) :
    fvMarshal (NewIpEcnField a).Value = fvMarshal (NewIpEcnField b).Value ∧
    fvMarshal (NewVlanPcpField a).Value = [a % 256] := by
  exact ⟨rfl, by simp [NewVlanPcpField, fvMarshal, Nat.mod_mod_of_dvd]⟩

/-- C4 counterexample: a single well-formed 8-byte frame with message type 4
(Experimenter) — declared length 8 equal to its actual length, and triggering
no oversize rewrite — fed to the framer as one chunk is never dispatched: the
framer waits forever for 16 bytes that never arrive, emitting 0 frames
instead of 1. -/
theorem short_experimenter_frame_stalls :
    ([1, 4, 0, 8, 0, 0, 0, 0] : List Nat).length = 8 ∧
    beUint16at [1, 4, 0, 8, 0, 0, 0, 0] 2 = 8 ∧
    feedChunks [[1, 4, 0, 8, 0, 0, 0, 0]] [] 0 =
      ⟨[], none, [1, 4, 0, 8, 0, 0, 0, 0], 0⟩ ∧
    ([] : List (List Nat)) ≠ [[1, 4, 0, 8, 0, 0, 0, 0]] := by
  refine ⟨by decide, by decide, by decide, by decide⟩

/-- C5 counterexample: `EthDstField.UnmarshalBinary` on the empty slice
(shorter than its fixed size 6) does not return a short-buffer error — it
succeeds, copying zero bytes. -/
theorem ethDst_unmarshal_accepts_short_input :
    EthDstField.UnmarshalBinary [] [] = .ok (.EthDstField []) ∧
    ∀ e : OxmErr, EthDstField.UnmarshalBinary [] [] ≠ .err e := by
  refine ⟨by decide, fun e => by cases e <;> decide⟩

set_option maxRecDepth 100000 in
/-- C8 counterexample: the stored inner `Length` is a `uint16` and wraps.
Adding 254 fields of `Len()` 259 (an unmasked 255-byte `ByteArrayField`)
to a fresh match stores `(4 + 254 * 259) % 65536 = 254`, not
`4 + Σ Len() = 65790`. -/
theorem match_length_wraps_at_uint16 :
    (List.foldl Match.AddField NewMatch
        (List.replicate 254 ⟨1, 40, false, 255, 0, .ByteArrayField 255 [], none⟩)).Length = 254 ∧
    4 + ((List.replicate 254
        (⟨1, 40, false, 255, 0, .ByteArrayField 255 [], none⟩ : MatchField)).map
          MatchField.Len).sum = 65790 ∧
    (254 : Nat) ≠ 65790 := by
  refine ⟨by decide, by decide, by decide⟩

theorem putUint32at_length (buf : List Nat) (i v : Nat) :
    (putUint32at buf i v).length = buf.length := by
  simpa [putUint32at] using writeAt_length buf i (putUint32 v)

theorem decodeMsgLen_length {buf : List Nat} {L : Nat} {b : List Nat}
    (h : decodeMsgLen buf = .known L b) : b.length = buf.length := by
  simp only [decodeMsgLen] at h
  split_ifs at h with h1 h2 h3 h4 h5 h6 <;> cases h <;>
    first
      | rfl
      | exact putUint32at_length _ _ _

theorem resolveLen_length {buf : List Nat} {t L : Nat} {b : List Nat}
    (h : resolveLen buf t = .known L b) : b.length = buf.length := by
  unfold resolveLen at h
  split_ifs at h
  · exact decodeMsgLen_length h
  · exact congrArg List.length ((LenDecode.known.inj h).2).symm

theorem resolveLen_wait_zero {buf : List Nat} {t : Nat} (h : resolveLen buf t = .wait) :
    t = 0 := by
  by_cases h0 : t = 0
  · exact h0
  · exfalso
    unfold resolveLen at h
    rw [if_neg h0] at h
    cases h

theorem inboundF_congr : ∀ (n m : Nat) (buf : List Nat) (t : Nat),
    buf.length < n → buf.length < m → inboundF n buf t = inboundF m buf t := by
  intro n
  induction n with
  | zero => intro m buf t hn _; omega
  | succ n ih =>
    intro m buf t hn hm
    match m, hm with
    | m + 1, hm =>
      simp only [inboundF]
      by_cases h4 : buf.length < 4
      · simp [h4]
      · simp only [h4, if_false]
        cases hr : resolveLen buf t with
        | wait => rfl
        | known L b =>
          by_cases hL : L < 8
          · simp [hL]
          · simp only [hL, if_false]
            by_cases hb : b.length < L
            · simp [hb]
            · simp only [hb, if_false]
              have hlen := resolveLen_length hr
              have hd : (b.drop L).length < n := by
                simp only [List.length_drop]; omega
              have hd' : (b.drop L).length < m := by
                simp only [List.length_drop]; omega
              rw [ih m (b.drop L) 0 hd hd']

theorem inboundProcess_stop {buf : List Nat} {t : Nat} (h : buf.length < 4) :
    inboundProcess buf t = ⟨[], none, buf, t⟩ := by
  unfold inboundProcess
  simp [inboundF, h]

theorem inboundProcess_wait {buf : List Nat} {t : Nat} (h4 : ¬ buf.length < 4)
    (hw : resolveLen buf t = .wait) : inboundProcess buf t = ⟨[], none, buf, 0⟩ := by
  unfold inboundProcess
  simp [inboundF, h4, hw]

theorem inboundProcess_invalid {buf : List Nat} {t L : Nat} {b : List Nat}
    (h4 : ¬ buf.length < 4) (hk : resolveLen buf t = .known L b) (hL : L < 8) :
    inboundProcess buf t = ⟨[], some L, b, L⟩ := by
  unfold inboundProcess
  simp [inboundF, h4, hk, hL]

theorem inboundProcess_incomplete {buf : List Nat} {t L : Nat} {b : List Nat}
    (h4 : ¬ buf.length < 4) (hk : resolveLen buf t = .known L b) (hL : ¬ L < 8)
    (hb : b.length < L) : inboundProcess buf t = ⟨[], none, b, L⟩ := by
  unfold inboundProcess
  simp [inboundF, h4, hk, hL, hb]

theorem inboundProcess_emit {buf : List Nat} {t L : Nat} {b : List Nat}
    (h4 : ¬ buf.length < 4) (hk : resolveLen buf t = .known L b) (hL : ¬ L < 8)
    (hb : ¬ b.length < L) :
    inboundProcess buf t =
      ⟨b.take L :: (inboundProcess (b.drop L) 0).frames,
        (inboundProcess (b.drop L) 0).error,
        (inboundProcess (b.drop L) 0).buf,
        (inboundProcess (b.drop L) 0).totalLen⟩ := by
  have hlen := resolveLen_length hk
  have step : inboundProcess buf t =
      ⟨b.take L :: (inboundF buf.length (b.drop L) 0).frames,
        (inboundF buf.length (b.drop L) 0).error,
        (inboundF buf.length (b.drop L) 0).buf,
        (inboundF buf.length (b.drop L) 0).totalLen⟩ := by
    show inboundF (buf.length + 1) buf t = _
    simp only [inboundF, h4, if_false, hk]
    simp [hL, hb]
  rw [step,
    inboundF_congr buf.length ((b.drop L).length + 1) (b.drop L) 0
      (by simp only [List.length_drop]; omega) (by omega)]
  rfl

/-- C9: whenever the header decode yields a declared length below 8, the
`inbound` loop publishes that length as a fatal invalid-length error (the
`error` component models `m.Error <- err; m.Shutdown <- true`) and dispatches
no frame. -/
theorem invalid_length_shuts_down (buf : List Nat) (L : Nat) (b : List Nat)
    (h4 : 4 ≤ buf.length) (hdec : decodeMsgLen buf = .known L b) (hL : L < 8) :
    inboundProcess buf 0 = ⟨[], some L, b, L⟩ := by
  have hres : resolveLen buf 0 = .known L b := by simp [resolveLen, hdec]
  exact inboundProcess_invalid (by omega) hres hL

/-- C9 witness: a header declaring length 5 produces the fatal error and no
frame. -/
theorem invalid_length_shuts_down_witness :
    inboundProcess [1, 0, 0, 5] 0 = ⟨[], some 5, [1, 0, 0, 5], 5⟩ :=
  invalid_length_shuts_down [1, 0, 0, 5] 5 [1, 0, 0, 5] (by decide) (by decide) (by decide)

/-- The guard of the PacketIn2 oversize workaround: Experimenter message type,
PacketIn2 experimenter type, first property NXPINT_PACKET, and a packet length
exceeding the declared total length. -/
def packetIn2Oversize (buf : List Nat) : Prop :=
  buf.getD 1 0 = 4 ∧ beUint32at buf 12 = 30 ∧ beUint16at buf 16 = 0 ∧
    beUint16at buf 2 < beUint16at buf 18

instance (buf : List Nat) : Decidable (packetIn2Oversize buf) := by
  unfold packetIn2Oversize
  infer_instance

/-- C3: with at least 20 bytes buffered, a prefix meeting all the PacketIn2
oversize conditions decodes to `total_len + 65536` with bytes 8..12 rewritten
to the big-endian sentinel `0x10002320`, and once the corrected length is
buffered the framer emits exactly that many (rewritten) bytes as the frame;
whenever the conditions are not all met, any completed decode leaves the
declared length and the buffer (hence bytes 8..12) unchanged. -/
theorem packetIn2_oversize_rewrite (buf : List Nat) :
    (20 ≤ buf.length → packetIn2Oversize buf →
      decodeMsgLen buf = .known (beUint16at buf 2 + 65536) (putUint32at buf 8 0x10002320) ∧
      (beUint16at buf 2 + 65536 ≤ buf.length →
        (inboundProcess buf 0).frames.head? =
          some ((putUint32at buf 8 0x10002320).take (beUint16at buf 2 + 65536)))) ∧
    (∀ L b, ¬ packetIn2Oversize buf → decodeMsgLen buf = .known L b →
      L = beUint16at buf 2 ∧ b = buf) := by
  constructor
  · intro h20 hc
    obtain ⟨h1, h2, h3, h4⟩ := hc
    have hdec : decodeMsgLen buf =
        .known (beUint16at buf 2 + 65536) (putUint32at buf 8 0x10002320) := by
      simp only [decodeMsgLen]
      rw [if_pos h1, if_neg (by omega : ¬ buf.length < 16), if_pos h2,
        if_neg (by omega : ¬ buf.length < 20), if_pos h3, if_pos h4]
    refine ⟨hdec, fun hfit => ?_⟩
    have hres : resolveLen buf 0 =
        .known (beUint16at buf 2 + 65536) (putUint32at buf 8 0x10002320) := by
      simp [resolveLen, hdec]
    have hlen : (putUint32at buf 8 0x10002320).length = buf.length :=
      putUint32at_length _ _ _
    rw [inboundProcess_emit (by omega) hres (by omega) (by omega)]
    rfl
  · intro L b hnc hdec
    simp only [decodeMsgLen] at hdec
    split_ifs at hdec with h1 h2 h3 h4 h5 h6 <;>
      first
        | exact absurd ⟨‹_›, ‹_›, ‹_›, ‹_›⟩ hnc
        | (cases hdec; exact ⟨rfl, rfl⟩)
        | cases hdec

/-- C3 witness: a concrete 20-byte prefix declaring `total_len = 8` with
`pkt_length = 40` is rewritten to length 65544, and a concrete non-matching
header decodes unchanged. -/
theorem packetIn2_oversize_rewrite_witness :
    decodeMsgLen [1, 4, 0, 8, 0, 0, 0, 0, 9, 9, 9, 9, 0, 0, 0, 30, 0, 0, 0, 40] =
      .known (beUint16at [1, 4, 0, 8, 0, 0, 0, 0, 9, 9, 9, 9, 0, 0, 0, 30, 0, 0, 0, 40] 2 + 65536)
        (putUint32at [1, 4, 0, 8, 0, 0, 0, 0, 9, 9, 9, 9, 0, 0, 0, 30, 0, 0, 0, 40] 8 0x10002320) ∧
    (16 = beUint16at [1, 0, 0, 16] 2 ∧ [1, 0, 0, 16] = [1, 0, 0, 16]) :=
  ⟨((packetIn2_oversize_rewrite
      [1, 4, 0, 8, 0, 0, 0, 0, 9, 9, 9, 9, 0, 0, 0, 30, 0, 0, 0, 40]).1
        (by decide) (by decide)).1,
    (packetIn2_oversize_rewrite [1, 0, 0, 16]).2 16 [1, 0, 0, 16] (by decide) (by decide)⟩

/-- C5 amended: the decoders that carry an explicit length check — the
MatchField header reader and the Ipv6FLabel, PbbIsid, Ipv6ExtHdr, Ttl,
ArpXHa, ArpXPa, IcmpType and IcmpCode field decoders — return a short-buffer
error on every input shorter than their fixed size.  (The remaining fixed
width decoders index the slice unchecked, which in Go is a runtime panic and
not an error return, and the MAC/IPv6 copy-based decoders succeed on short
input; see the counterexample.) -/
theorem checked_decoders_reject_short_input (data : List Nat) :
    (data.length < 4 → MatchField.UnmarshalHeader data = .err .shortBuffer) ∧
    (data.length < 4 → Ipv6FLabelField.UnmarshalBinary data = .err .shortBuffer) ∧
    (data.length < 4 → PbbIsidField.UnmarshalBinary data = .err .shortBuffer) ∧
    (data.length < 2 → Ipv6ExtHdrField.UnmarshalBinary data = .err .shortBuffer) ∧
    (data.length < 1 → TtlField.UnmarshalBinary data = .err .shortBuffer) ∧
    (∀ cur, data.length < 6 → ArpXHaField.UnmarshalBinary cur data = .err .shortBuffer) ∧
    (data.length < 4 → ArpXPaField.UnmarshalBinary data = .err .shortBuffer) ∧
    (data.length < 1 → IcmpTypeField.UnmarshalBinary data = .err .shortBuffer) ∧
    (data.length < 1 → IcmpCodeField.UnmarshalBinary data = .err .shortBuffer) := by
  refine ⟨fun h => ?_, fun h => ?_, fun h => ?_, fun h => ?_, fun h => ?_,
    fun cur h => ?_, fun h => ?_, fun h => ?_, fun h => ?_⟩ <;>
    simp [MatchField.UnmarshalHeader, Ipv6FLabelField.UnmarshalBinary,
      PbbIsidField.UnmarshalBinary, Ipv6ExtHdrField.UnmarshalBinary,
      TtlField.UnmarshalBinary, ArpXHaField.UnmarshalBinary,
      ArpXPaField.UnmarshalBinary, IcmpTypeField.UnmarshalBinary,
      IcmpCodeField.UnmarshalBinary, h]

/-- C5 amended witness: all nine checked decoders reject the empty slice. -/
theorem checked_decoders_reject_short_input_witness :
    MatchField.UnmarshalHeader [] = .err .shortBuffer ∧
    Ipv6FLabelField.UnmarshalBinary [] = .err .shortBuffer ∧
    PbbIsidField.UnmarshalBinary [] = .err .shortBuffer ∧
    Ipv6ExtHdrField.UnmarshalBinary [] = .err .shortBuffer ∧
    TtlField.UnmarshalBinary [] = .err .shortBuffer ∧
    ArpXHaField.UnmarshalBinary [] [] = .err .shortBuffer ∧
    ArpXPaField.UnmarshalBinary [] = .err .shortBuffer ∧
    IcmpTypeField.UnmarshalBinary [] = .err .shortBuffer ∧
    IcmpCodeField.UnmarshalBinary [] = .err .shortBuffer :=
  ⟨(checked_decoders_reject_short_input []).1 (by decide),
    (checked_decoders_reject_short_input []).2.1 (by decide),
    (checked_decoders_reject_short_input []).2.2.1 (by decide),
    (checked_decoders_reject_short_input []).2.2.2.1 (by decide),
    (checked_decoders_reject_short_input []).2.2.2.2.1 (by decide),
    (checked_decoders_reject_short_input []).2.2.2.2.2.1 [] (by decide),
    (checked_decoders_reject_short_input []).2.2.2.2.2.2.1 (by decide),
    (checked_decoders_reject_short_input []).2.2.2.2.2.2.2.1 (by decide),
    (checked_decoders_reject_short_input []).2.2.2.2.2.2.2.2 (by decide)⟩

/-- C7: for every byte-array-shaped OXM field — TUN_METADATA0–7 and XXREG0–3
(class NXM_1), CT_LABEL (class NXM_1, field 108, modelled from the spec), and
Packet Registers 0–7 (class 0x8001) — a successful `DecodeMatchField`
produces a value whose reported `Len()` is `length / 2` when `has_mask` is
set and `length` otherwise. -/
theorem byte_array_mask_halving (cls fld length : Nat) (hasMask : Bool)
    (data : List Nat) (v : FieldValue) (hlen : length < 256)
    (hfam : (cls = OXM_CLASS_NXM_1 ∧
        ((40 ≤ fld ∧ fld ≤ 47) ∨ (111 ≤ fld ∧ fld ≤ 114) ∨ fld = 108)) ∨
      (cls = OXM_CLASS_PACKET_REGS ∧ fld ≤ 7))
    (hok : DecodeMatchField cls fld length hasMask data = .ok v) :
    fvLen v = if hasMask then length / 2 else length := by
  rcases hfam with ⟨hcls, hf⟩ | ⟨hcls, hf⟩
  · subst hcls
    rcases hf with ⟨hlo, hhi⟩ | ⟨hlo, hhi⟩ | hf
    · interval_cases fld <;>
        · simp only [DecodeMatchField, OXM_CLASS_NXM_1, OXM_CLASS_OPENFLOW_BASIC,
            ByteArrayField.UnmarshalBinary] at hok
          norm_num at hok
          split_ifs at hok <;> cases hok <;> simp_all [fvLen] <;> omega
    · interval_cases fld <;>
        · simp only [DecodeMatchField, OXM_CLASS_NXM_1, OXM_CLASS_OPENFLOW_BASIC,
            ByteArrayField.UnmarshalBinary] at hok
          norm_num at hok
          split_ifs at hok <;> cases hok <;> simp_all [fvLen] <;> omega
    · subst hf
      simp only [DecodeMatchField, OXM_CLASS_NXM_1, OXM_CLASS_OPENFLOW_BASIC,
        CTLabel.UnmarshalBinary] at hok
      norm_num at hok
      split_ifs at hok <;> cases hok <;> simp_all [fvLen] <;> omega
  · subst hcls
    interval_cases fld <;>
      · simp only [DecodeMatchField, OXM_CLASS_PACKET_REGS, OXM_CLASS_NXM_1,
          OXM_CLASS_OPENFLOW_BASIC, ByteArrayField.UnmarshalBinary] at hok
        norm_num at hok
        split_ifs at hok <;> cases hok <;> simp_all [fvLen] <;> omega

/-- C7 witness: decoding TUN_METADATA0 with header length 8 and a mask yields
a 4-byte-per-side field. -/
theorem byte_array_mask_halving_witness :
    fvLen (.ByteArrayField 4 [1, 2, 3, 4]) = if true then 8 / 2 else 8 :=
  byte_array_mask_halving 1 40 8 true [1, 2, 3, 4] (.ByteArrayField 4 [1, 2, 3, 4])
    (by decide) (by decide) (by decide)

theorem fvMarshal_length (v : FieldValue) : (fvMarshal v).length = fvLen v := by
  cases v <;>
    simp only [fvMarshal, fvLen, putUint16, putUint32, putUint64, goCopy_length,
      List.length_replicate, List.length_cons, List.length_nil, List.length_append,
      List.length_take] <;>
    omega

theorem matchFieldLen_ge_four (f : MatchField) : 4 ≤ f.Len := by
  unfold MatchField.Len
  omega

/-- C8 amended: the match-building length invariant holds in `uint16`
arithmetic: a match built by any sequence of `AddField` calls from `NewMatch`
stores inner length `(4 + Σ field.Len()) % 2^16` (equal to `4 + Σ` whenever
that sum is below 65536); and for every marshalable field the byte length of
`MatchField.MarshalBinary`'s output equals `MatchField.Len`. -/
theorem length_accounting (fields : List MatchField) (f : MatchField)
    (hmask : f.HasMask → f.Mask.isSome) :
    (List.foldl Match.AddField NewMatch fields).Length =
      (4 + (fields.map MatchField.Len).sum) % 65536 ∧
    GoResult.bind f.MarshalBinary (fun d => .ok d.length) = .ok f.Len := by
  constructor
  · have key : ∀ (fs : List MatchField) (m : Match), m.Length < 65536 →
        (List.foldl Match.AddField m fs).Length =
          (m.Length + (fs.map MatchField.Len).sum) % 65536 := by
      intro fs
      induction fs with
      | nil => intro m hm; simp [Nat.mod_eq_of_lt hm]
      | cons g gs ih =>
        intro m hm
        have h1 : (Match.AddField m g).Length = (m.Length + g.Len) % 65536 := rfl
        calc (List.foldl Match.AddField (Match.AddField m g) gs).Length
            = ((Match.AddField m g).Length + (gs.map MatchField.Len).sum) % 65536 :=
              ih (Match.AddField m g) (by rw [h1]; exact Nat.mod_lt _ (by omega))
          _ = (m.Length + g.Len + (gs.map MatchField.Len).sum) % 65536 := by
              rw [h1, Nat.mod_add_mod]
          _ = (m.Length + ((g :: gs).map MatchField.Len).sum) % 65536 := by
              simp [Nat.add_assoc]
    simpa using key fields NewMatch (by decide)
  · unfold MatchField.MarshalBinary
    by_cases hm : f.HasMask
    · cases hmsk : f.Mask with
      | none =>
        have hsome := hmask hm
        rw [hmsk] at hsome
        simp at hsome
      | some msk =>
        simp only [hm, hmsk, if_true, GoResult.bind]
        simp [writeAt_length]
    · simp only [hm, Bool.false_eq_true, if_false, GoResult.bind]
      simp [writeAt_length]

/-- C8 witness: a match with one IN_PORT field has inner length
`(4 + 8) % 65536`, and the field's marshal emits `Len()` bytes. -/
theorem length_accounting_witness :
    (List.foldl Match.AddField NewMatch [NewInPortField 5]).Length =
      (4 + ([NewInPortField 5].map MatchField.Len).sum) % 65536 ∧
    GoResult.bind (NewInPortField 5).MarshalBinary (fun d => .ok d.length) =
      .ok (NewInPortField 5).Len :=
  length_accounting [NewInPortField 5] (NewInPortField 5) (by decide)

theorem getD_append {l l' : List Nat} {i : Nat} (h : i < l.length) (d : Nat) :
    (l ++ l').getD i d = l.getD i d := by
  simp [List.getD, List.getElem?_append_left h]

theorem beUint16at_append {l l' : List Nat} {i : Nat} (h : i + 2 ≤ l.length) :
    beUint16at (l ++ l') i = beUint16at l i := by
  unfold beUint16at
  rw [getD_append (by omega), getD_append (by omega)]

theorem beUint32at_append {l l' : List Nat} {i : Nat} (h : i + 4 ≤ l.length) :
    beUint32at (l ++ l') i = beUint32at l i := by
  unfold beUint32at
  rw [getD_append (by omega), getD_append (by omega), getD_append (by omega),
    getD_append (by omega)]

theorem goCopy_append {l D src : List Nat} (h : src.length ≤ l.length) :
    goCopy (l ++ D) src = goCopy l src ++ D := by
  unfold goCopy
  rw [show min (l ++ D).length src.length = src.length by simp; omega,
    show min l.length src.length = src.length by omega,
    List.take_length, List.drop_append_of_le_length h, List.append_assoc]

theorem writeAt_append {l D src : List Nat} {i : Nat} (h : i + src.length ≤ l.length) :
    writeAt (l ++ D) i src = writeAt l i src ++ D := by
  unfold writeAt
  rw [if_pos (by simp; omega), if_pos (by omega),
    List.take_append_of_le_length (by omega),
    List.drop_append_of_le_length (by omega),
    goCopy_append (by simp; omega), List.append_assoc]

theorem putUint32at_append {l D : List Nat} {i v : Nat} (h : i + 4 ≤ l.length) :
    putUint32at (l ++ D) i v = putUint32at l i v ++ D := by
  unfold putUint32at
  exact writeAt_append (by simp [putUint32]; omega)

theorem decodeMsgLen_append {buf D : List Nat} {L : Nat} {b : List Nat}
    (h4 : 4 ≤ buf.length) (h : decodeMsgLen buf = .known L b) :
    decodeMsgLen (buf ++ D) = .known L (b ++ D) := by
  have e1 : (buf ++ D).getD 1 0 = buf.getD 1 0 := getD_append (by omega) _
  have e2 : beUint16at (buf ++ D) 2 = beUint16at buf 2 := beUint16at_append (by omega)
  simp only [decodeMsgLen] at h ⊢
  rw [e1, e2]
  by_cases h1 : buf.getD 1 0 = 4
  · rw [if_pos h1] at h ⊢
    by_cases h16 : buf.length < 16
    · rw [if_pos h16] at h; cases h
    · rw [if_neg h16] at h
      rw [if_neg (show ¬ (buf ++ D).length < 16 by simp; omega)]
      have e3 : beUint32at (buf ++ D) 12 = beUint32at buf 12 := beUint32at_append (by omega)
      rw [e3]
      by_cases h30 : beUint32at buf 12 = 30
      · rw [if_pos h30] at h ⊢
        by_cases h20 : buf.length < 20
        · rw [if_pos h20] at h; cases h
        · rw [if_neg h20] at h
          rw [if_neg (show ¬ (buf ++ D).length < 20 by simp; omega)]
          have e4 : beUint16at (buf ++ D) 16 = beUint16at buf 16 := beUint16at_append (by omega)
          have e5 : beUint16at (buf ++ D) 18 = beUint16at buf 18 := beUint16at_append (by omega)
          rw [e4, e5]
          by_cases hp : beUint16at buf 16 = 0
          · rw [if_pos hp] at h ⊢
            by_cases hlt : beUint16at buf 2 < beUint16at buf 18
            · rw [if_pos hlt] at h ⊢
              cases h
              rw [putUint32at_append (by omega)]
            · rw [if_neg hlt] at h ⊢
              cases h
              rfl
          · rw [if_neg hp] at h ⊢
            cases h
            rfl
      · rw [if_neg h30] at h ⊢
        cases h
        rfl
  · rw [if_neg h1] at h ⊢
    cases h
    rfl

theorem resolveLen_append {buf D : List Nat} {t L : Nat} {b : List Nat}
    (h4 : 4 ≤ buf.length) (h : resolveLen buf t = .known L b) :
    resolveLen (buf ++ D) t = .known L (b ++ D) := by
  unfold resolveLen at h ⊢
  by_cases h0 : t = 0
  · rw [if_pos h0] at h ⊢
    exact decodeMsgLen_append h4 h
  · rw [if_neg h0] at h ⊢
    cases h
    rfl

theorem inbound_append : ∀ (n : Nat) (buf D : List Nat) (t : Nat), buf.length ≤ n →
    ((inboundProcess buf t).error = none →
      inboundProcess (buf ++ D) t =
        ⟨(inboundProcess buf t).frames ++
            (inboundProcess ((inboundProcess buf t).buf ++ D)
              (inboundProcess buf t).totalLen).frames,
          (inboundProcess ((inboundProcess buf t).buf ++ D)
            (inboundProcess buf t).totalLen).error,
          (inboundProcess ((inboundProcess buf t).buf ++ D)
            (inboundProcess buf t).totalLen).buf,
          (inboundProcess ((inboundProcess buf t).buf ++ D)
            (inboundProcess buf t).totalLen).totalLen⟩) ∧
    (∀ e, (inboundProcess buf t).error = some e →
      inboundProcess (buf ++ D) t =
        ⟨(inboundProcess buf t).frames, some e, (inboundProcess buf t).buf ++ D,
          (inboundProcess buf t).totalLen⟩) := by
  intro n
  induction n using Nat.strong_induction_on with
  | _ n ih =>
    intro buf D t hn
    by_cases h4 : buf.length < 4
    · have ho := inboundProcess_stop (t := t) h4
      constructor
      · intro _
        rw [ho]
        rfl
      · intro e he
        rw [ho] at he
        simp at he
    · cases hr : resolveLen buf t with
      | wait =>
        have hz := resolveLen_wait_zero hr
        subst hz
        have ho := inboundProcess_wait h4 hr
        constructor
        · intro _
          rw [ho]
          rfl
        · intro e he
          rw [ho] at he
          simp at he
      | known L b =>
        have hblen := resolveLen_length hr
        have hres2 : resolveLen (buf ++ D) t = .known L (b ++ D) :=
          resolveLen_append (by omega) hr
        by_cases hL : L < 8
        · have ho := inboundProcess_invalid h4 hr hL
          have ho2 := inboundProcess_invalid
            (show ¬ (buf ++ D).length < 4 by simp; omega) hres2 hL
          constructor
          · intro hnone
            rw [ho] at hnone
            simp at hnone
          · intro e he
            rw [ho] at he
            simp only at he
            injection he with he'
            subst he'
            rw [ho2, ho]
        · have hresolve_b : resolveLen (b ++ D) L = .known L (b ++ D) := by
            unfold resolveLen
            rw [if_neg (by omega : ¬ L = 0)]
          by_cases hble : b.length < L
          · have ho := inboundProcess_incomplete h4 hr hL hble
            constructor
            · intro _
              have step : inboundProcess (buf ++ D) t = inboundProcess (b ++ D) L := by
                by_cases hble2 : (b ++ D).length < L
                · rw [inboundProcess_incomplete (by simp; omega) hres2 hL hble2,
                    inboundProcess_incomplete (by simp; omega) hresolve_b hL hble2]
                · rw [inboundProcess_emit (by simp; omega) hres2 hL hble2,
                    inboundProcess_emit (by simp; omega) hresolve_b hL hble2]
              rw [step, ho]
              rfl
            · intro e he
              rw [ho] at he
              simp at he
          · have ho := inboundProcess_emit h4 hr hL hble
            have hble2 : ¬ (b ++ D).length < L := by simp; omega
            have ho2 := inboundProcess_emit (by simp; omega) hres2 hL hble2
            have htake : (b ++ D).take L = b.take L :=
              List.take_append_of_le_length (by omega)
            have hdrop : (b ++ D).drop L = b.drop L ++ D :=
              List.drop_append_of_le_length (by omega)
            have hrlt : (b.drop L).length < n := by
              simp only [List.length_drop]
              omega
            have IH := ih (b.drop L).length hrlt (b.drop L) D 0 (le_refl _)
            constructor
            · intro hnone
              rw [ho] at hnone
              simp only at hnone
              rw [ho2, htake, hdrop, IH.1 hnone, ho]
              simp [List.cons_append]
            · intro e he
              rw [ho] at he
              simp only at he
              rw [ho2, htake, hdrop, IH.2 e he, ho]

theorem inbound_fixpoint : ∀ (n : Nat) (buf : List Nat) (t : Nat), buf.length ≤ n →
    (inboundProcess buf t).error = none →
    inboundProcess (inboundProcess buf t).buf (inboundProcess buf t).totalLen =
      ⟨[], none, (inboundProcess buf t).buf, (inboundProcess buf t).totalLen⟩ := by
  intro n
  induction n using Nat.strong_induction_on with
  | _ n ih =>
    intro buf t hn _
    by_cases h4 : buf.length < 4
    · rw [inboundProcess_stop h4]
      exact inboundProcess_stop h4
    · cases hr : resolveLen buf t with
      | wait =>
        have hz := resolveLen_wait_zero hr
        subst hz
        rw [inboundProcess_wait h4 hr]
        exact inboundProcess_wait h4 hr
      | known L b =>
        have hblen := resolveLen_length hr
        by_cases hL : L < 8
        · rename_i hnone
          rw [inboundProcess_invalid h4 hr hL] at hnone
          simp at hnone
        · have hresolve_b : resolveLen b L = .known L b := by
            unfold resolveLen
            rw [if_neg (by omega : ¬ L = 0)]
          by_cases hble : b.length < L
          · rw [inboundProcess_incomplete h4 hr hL hble]
            show inboundProcess b L = ⟨[], none, b, L⟩
            exact inboundProcess_incomplete (by omega) hresolve_b hL hble
          · rename_i hnone
            have ho := inboundProcess_emit h4 hr hL hble
            rw [ho] at hnone ⊢
            simp only at hnone ⊢
            have hrlt : (b.drop L).length < n := by
              simp only [List.length_drop]
              omega
            exact ih (b.drop L).length hrlt (b.drop L) 0 (le_refl _) hnone

theorem feedChunks_eq_inbound : ∀ (cs : List (List Nat)) (buf : List Nat) (t : Nat),
    inboundProcess buf t = ⟨[], none, buf, t⟩ →
    (feedChunks cs buf t).frames = (inboundProcess (buf ++ cs.flatten) t).frames ∧
    (feedChunks cs buf t).error = (inboundProcess (buf ++ cs.flatten) t).error ∧
    ((feedChunks cs buf t).error = none →
      (feedChunks cs buf t).buf = (inboundProcess (buf ++ cs.flatten) t).buf ∧
      (feedChunks cs buf t).totalLen = (inboundProcess (buf ++ cs.flatten) t).totalLen) := by
  intro cs
  induction cs with
  | nil =>
    intro buf t hq
    simp [feedChunks, hq]
  | cons c cs ih =>
    intro buf t hq
    have happ := inbound_append (buf ++ c).length (buf ++ c) cs.flatten t (le_refl _)
    have hflat : buf ++ (c :: cs).flatten = (buf ++ c) ++ cs.flatten := by
      simp [List.flatten_cons]
    cases he : (inboundProcess (buf ++ c) t).error with
    | some e =>
      have h2 := happ.2 e he
      simp only [feedChunks, he]
      rw [hflat, h2]
      exact ⟨rfl, by simp, fun hn => by simp at hn⟩
    | none =>
      have h1 := happ.1 he
      have hqout := inbound_fixpoint (buf ++ c).length (buf ++ c) t (le_refl _) he
      have IH := ih (inboundProcess (buf ++ c) t).buf (inboundProcess (buf ++ c) t).totalLen hqout
      simp only [feedChunks, he]
      rw [hflat, h1]
      refine ⟨by simp [IH.1], by simp [IH.2.1], fun hn => ?_⟩
      simp only at hn
      have := IH.2.2 (by rwa [IH.2.1] at hn ⊢)
      exact ⟨by simp [this.1], by simp [this.2]⟩

/-- A frame that self-delimits for the framer regardless of what follows it
in the buffer: either it is not an Experimenter message, or it is long enough
that the oversize probe reads only its own bytes and does not rewrite it. -/
def selfDelim (f : List Nat) : Prop :=
  f.getD 1 0 ≠ 4 ∨ (16 ≤ f.length ∧ beUint32at f 12 ≠ 30) ∨
    (20 ≤ f.length ∧ (beUint16at f 16 ≠ 0 ∨ beUint16at f 18 ≤ beUint16at f 2))

/-- A well-formed frame for the fragmentation property: at least 8 bytes,
declared length equal to actual length, self-delimiting. -/
def goodFrame (f : List Nat) : Prop :=
  8 ≤ f.length ∧ beUint16at f 2 = f.length ∧ selfDelim f

instance (f : List Nat) : Decidable (selfDelim f) := by
  unfold selfDelim
  infer_instance

instance (f : List Nat) : Decidable (goodFrame f) := by
  unfold goodFrame
  infer_instance

theorem decodeMsgLen_goodFrame {f : List Nat} (s : List Nat) (hf : goodFrame f) :
    decodeMsgLen (f ++ s) = .known f.length (f ++ s) := by
  obtain ⟨h8, hdecl, hsd⟩ := hf
  have e1 : (f ++ s).getD 1 0 = f.getD 1 0 := getD_append (by omega) _
  have e2 : beUint16at (f ++ s) 2 = beUint16at f 2 := beUint16at_append (by omega)
  have hlen : f.length ≤ (f ++ s).length := by simp
  simp only [decodeMsgLen]
  rw [e1, e2, hdecl]
  by_cases h1 : f.getD 1 0 = 4
  · rw [if_pos h1]
    rcases hsd with h | ⟨h16, h30⟩ | ⟨h20, hrest⟩
    · exact absurd h1 h
    · rw [if_neg (show ¬ (f ++ s).length < 16 by simp; omega),
        beUint32at_append (by omega), if_neg h30]
    · rw [if_neg (show ¬ (f ++ s).length < 16 by simp; omega)]
      by_cases h30 : beUint32at (f ++ s) 12 = 30
      · rw [if_pos h30, if_neg (show ¬ (f ++ s).length < 20 by simp; omega),
          beUint16at_append (show 16 + 2 ≤ f.length by omega),
          beUint16at_append (show 18 + 2 ≤ f.length by omega)]
        rcases hrest with hp | hle
        · rw [if_neg hp]
        · by_cases hp : beUint16at f 16 = 0
          · rw [if_pos hp, if_neg (by omega)]
          · rw [if_neg hp]
      · rw [if_neg h30]
  · rw [if_neg h1]

theorem inbound_concat_good : ∀ (fs : List (List Nat)),
    (∀ f ∈ fs, goodFrame f) →
    inboundProcess fs.flatten 0 = ⟨fs, none, [], 0⟩ := by
  intro fs
  induction fs with
  | nil =>
    intro _
    exact inboundProcess_stop (by simp)
  | cons f fs ih =>
    intro hgood
    have hf : goodFrame f := hgood f (List.mem_cons_self f fs)
    have h8 : 8 ≤ f.length := hf.1
    have hdec : decodeMsgLen (f ++ fs.flatten) = .known f.length (f ++ fs.flatten) :=
      decodeMsgLen_goodFrame fs.flatten hf
    have hres : resolveLen (f ++ fs.flatten) 0 = .known f.length (f ++ fs.flatten) := by
      unfold resolveLen
      rw [if_pos rfl]
      exact hdec
    have hflat : (f :: fs).flatten = f ++ fs.flatten := by simp
    rw [hflat,
      inboundProcess_emit (by simp; omega) hres (by omega)
        (show ¬ (f ++ fs.flatten).length < f.length by simp),
      List.take_append_of_le_length (le_refl _), List.take_length,
      List.drop_append_of_le_length (le_refl _), List.drop_length, List.nil_append,
      ih (fun g hg => hgood g (List.mem_cons_of_mem f hg))]

/-- C4 amended: for every finite sequence of well-formed frames that are also
self-delimiting for the framer — at least 8 bytes, declared length equal to
actual length, and either not an Experimenter (`msg_type ≠ 4`) frame or long
enough that the PacketIn2 oversize probe stays inside the frame without
rewriting it — and for every partition of their concatenation into chunks fed
in order, the reader dispatches exactly those frames, in order, with no
error.  (The self-delimitation condition is forced by the counterexample: an
8-byte `msg_type = 4` frame makes the framer wait forever.) -/
theorem framer_fragmentation (fs cs : List (List Nat))
    (hgood : ∀ f ∈ fs, goodFrame f) (hsplit : cs.flatten = fs.flatten) :
    (feedChunks cs [] 0).frames = fs ∧ (feedChunks cs [] 0).error = none := by
  have hq : inboundProcess [] 0 = ⟨[], none, [], 0⟩ := inboundProcess_stop (by simp)
  have heq := feedChunks_eq_inbound cs [] 0 hq
  have hconcat := inbound_concat_good fs hgood
  constructor
  · rw [heq.1]
    simp only [List.nil_append, hsplit, hconcat]
  · rw [heq.2.1]
    simp only [List.nil_append, hsplit, hconcat]

/-- C4 amended witness: two concrete frames cut into three chunks across
frame boundaries are reassembled and dispatched in order. -/
theorem framer_fragmentation_witness :
    (feedChunks [[1, 0], [0, 8, 0, 0, 0, 1, 1, 0, 0, 9], [0, 0, 0, 2, 9]] [] 0).frames =
      [[1, 0, 0, 8, 0, 0, 0, 1], [1, 0, 0, 9, 0, 0, 0, 2, 9]] ∧
    (feedChunks [[1, 0], [0, 8, 0, 0, 0, 1, 1, 0, 0, 9], [0, 0, 0, 2, 9]] [] 0).error = none :=
  framer_fragmentation [[1, 0, 0, 8, 0, 0, 0, 1], [1, 0, 0, 9, 0, 0, 0, 2, 9]]
    [[1, 0], [0, 8, 0, 0, 0, 1, 1, 0, 0, 9], [0, 0, 0, 2, 9]] (by decide) (by decide)
